import Mathlib

/-!
# Procedure TestCase1 (generated FW Profile procedure)

Shallow embedding of `scripts/test_gen_code/FwPrTestCase1.c` and
`FwPrTestCase1.h`.

* The static variable `curNode` becomes the field `curNode` of `ProcState`.
* The external action and guard callbacks are not part of the module. Every
  invocation is recorded in the field `log` of `ProcState`, together with the
  value `curNode` holds at the moment of the call (what `FwPrTestCase1GetCurNode`
  would give to the callback). The results of the three guards during one call
  of `FwPrTestCase1Execute` are given by a `Guards` record.
* The enumerator `eTestCase1Init` is used by the body file but is not declared
  in the header; it is a parameter of every definition that uses it.
* `while (1)` is modelled by a fuel-indexed iteration of the loop body;
  `none` means that the loop is still running when the fuel is used up.
-/

namespace TestCase1

/-- Enumerated type for the procedure nodes; a C enumeration, held as an integer. -/
abbrev eTestCase1Nodes_t : Type := Int

/-- Enumerator `eTestCase1Stopped = 0`. -/
def eTestCase1Stopped : eTestCase1Nodes_t := 0
/-- Enumerator `eTestCase1N1 = 1`. -/
def eTestCase1N1 : eTestCase1Nodes_t := 1
/-- Enumerator `eTestCase1N2 = 2`. -/
def eTestCase1N2 : eTestCase1Nodes_t := 2
/-- Enumerator `eTestCase1N3 = 3`. -/
def eTestCase1N3 : eTestCase1Nodes_t := 3
/-- Enumerator `eTestCase1N4 = 4`. -/
def eTestCase1N4 : eTestCase1Nodes_t := 4
/-- Enumerator `eTestCase1N5 = 5`. -/
def eTestCase1N5 : eTestCase1Nodes_t := 5

/-- The external functions called by `FwPrTestCase1Execute`: five actions and
three guards. -/
inductive Callback
  | FwPrTestCase1N1
  | FwPrTestCase1N2
  | FwPrTestCase1N3
  | FwPrTestCase1N4
  | FwPrTestCase1N5
  | FwPrTestCase1Decision1N2
  | FwPrTestCase1Decision1Final
  | FwPrTestCase1N3N5
  deriving DecidableEq

/-- The callbacks whose result is discarded (actions), as opposed to guards. -/
def Callback.isAction : Callback → Bool
  | .FwPrTestCase1N1 => true
  | .FwPrTestCase1N2 => true
  | .FwPrTestCase1N3 => true
  | .FwPrTestCase1N4 => true
  | .FwPrTestCase1N5 => true
  | .FwPrTestCase1Decision1N2 => false
  | .FwPrTestCase1Decision1Final => false
  | .FwPrTestCase1N3N5 => false

/-- One callback invocation: which callback, and the value of `curNode` when it
was called. -/
structure Event where
  callback : Callback
  curNode : eTestCase1Nodes_t
  deriving DecidableEq

/-- Results given by the three guard functions during one call of
`FwPrTestCase1Execute`. -/
structure Guards where
  FwPrTestCase1Decision1N2 : Int
  FwPrTestCase1Decision1Final : Int
  FwPrTestCase1N3N5 : Int
  deriving DecidableEq

/-- The module state: the static `curNode`, and the record of the callbacks
invoked so far (oldest first). -/
structure ProcState where
  curNode : eTestCase1Nodes_t
  log : List Event
  deriving DecidableEq

/-- Calling the external function `c` in state `s`: the call is recorded with the
current value of `curNode`; `curNode` itself is static to the module and is not
written by the callback. -/
def invoke (c : Callback) (s : ProcState) : ProcState :=
  { s with log := s.log ++ [⟨c, s.curNode⟩] }

/-- The assignment `curNode = n;`. -/
def setCurNode (n : eTestCase1Nodes_t) (s : ProcState) : ProcState :=
  { s with curNode := n }

/-- The action callbacks recorded in a log, in order of invocation. -/
def actionsOf (log : List Event) : List Callback :=
  (log.map Event.callback).filter Callback.isAction

/-- `unsigned int FwPrTestCase1IsStarted() { return curNode != eTestCase1Stopped; }` -/
def FwPrTestCase1IsStarted (s : ProcState) : Nat :=
  if s.curNode ≠ eTestCase1Stopped then 1 else 0

/-- `eTestCase1Nodes_t FwPrTestCase1GetCurNode() { return curNode; }` -/
def FwPrTestCase1GetCurNode (s : ProcState) : eTestCase1Nodes_t :=
  s.curNode

/-- `FwPrTestCase1Start`: returns at once unless `curNode` is `eTestCase1Stopped`,
else sets `curNode = eTestCase1Init`. -/
def FwPrTestCase1Start (eTestCase1Init : eTestCase1Nodes_t) (s : ProcState) : ProcState :=
  if s.curNode ≠ eTestCase1Stopped then s
  else setCurNode eTestCase1Init s

/-- `FwPrTestCase1Stop`: returns at once if `curNode` is `eTestCase1Stopped`, else
sets `curNode = eTestCase1Stopped`. -/
def FwPrTestCase1Stop (s : ProcState) : ProcState :=
  if s.curNode = eTestCase1Stopped then s
  else setCurNode eTestCase1Stopped s

/-- Outcome of a piece of the loop body of `FwPrTestCase1Execute`: a `return`
statement was executed, or control reached the end of the piece. -/
inductive LoopResult
  | returned (s : ProcState)
  | continued (s : ProcState)
  deriving DecidableEq

/-- Lines 40-56 of the body file: the block `if (curNode == eTestCase1Init) {...}`.
In the final `else` branch `FwPrTestCase1N3()` is called and `curNode` is not
assigned. -/
def ExecuteBlockInit (eTestCase1Init : eTestCase1Nodes_t) (g : Guards) (s : ProcState) :
    LoopResult :=
  if s.curNode = eTestCase1Init then
    let s := setCurNode eTestCase1N1 s
    let s := invoke .FwPrTestCase1N1 s
    let s := invoke .FwPrTestCase1Decision1N2 s
    if g.FwPrTestCase1Decision1N2 = 1 then
      let s := setCurNode eTestCase1N2 s
      let s := invoke .FwPrTestCase1N2 s
      let s := setCurNode eTestCase1N4 s
      let s := invoke .FwPrTestCase1N4 s
      let s := setCurNode eTestCase1Stopped s
      .returned s
    else
      let s := invoke .FwPrTestCase1Decision1Final s
      if g.FwPrTestCase1Decision1Final = 1 then
        let s := setCurNode eTestCase1Stopped s
        .returned s
      else
        let s := invoke .FwPrTestCase1N3 s
        .continued s
  else
    .continued s

/-- Lines 57-65 of the body file: the block `if (curNode == eTestCase1N3) {...}`.
The inner block `if (FwPrTestCase1N3N5() == 0) {` is closed only at line 64, so
lines 59-63 all belong to the branch taken when the guard gives 0, and nothing is
done when the guard gives another value. Line 59 is `return` with no semicolon,
so the statement runs on to line 60 and is `return curNode = eTestCase1N5;`: the
assignment is evaluated and the function returns; lines 61-63 are never reached. -/
def ExecuteBlockN3 (g : Guards) (s : ProcState) : LoopResult :=
  if s.curNode = eTestCase1N3 then
    let s := invoke .FwPrTestCase1N3N5 s
    if g.FwPrTestCase1N3N5 = 0 then
      let s := setCurNode eTestCase1N5 s
      .returned s
    else
      .continued s
  else
    .continued s

/-- One pass through the body of `while (1) {...}` (lines 40-65). -/
def ExecuteLoopBody (eTestCase1Init : eTestCase1Nodes_t) (g : Guards) (s : ProcState) :
    LoopResult :=
  match ExecuteBlockInit eTestCase1Init g s with
  | .returned s => .returned s
  | .continued s => ExecuteBlockN3 g s

/-- The loop `while (1) {...}` run for at most `fuel` passes: `some s` when a
`return` was executed within `fuel` passes, leaving state `s`; `none` when the
loop is still running after `fuel` passes. -/
def ExecuteLoop (eTestCase1Init : eTestCase1Nodes_t) (g : Guards) :
    Nat → ProcState → Option ProcState
  | 0, _ => none
  | fuel + 1, s =>
    match ExecuteLoopBody eTestCase1Init g s with
    | .returned s => some s
    | .continued s => ExecuteLoop eTestCase1Init g fuel s

/-- `FwPrTestCase1Execute`: returns at once when `curNode` is `eTestCase1Stopped`,
otherwise runs the loop. -/
def FwPrTestCase1Execute (eTestCase1Init : eTestCase1Nodes_t) (g : Guards) (fuel : Nat)
    (s : ProcState) : Option ProcState :=
  if s.curNode = eTestCase1Stopped then some s
  else ExecuteLoop eTestCase1Init g fuel s

/-- The call of `FwPrTestCase1Execute` in state `s` returns and leaves state `t`. -/
def ExecuteReturns (eTestCase1Init : eTestCase1Nodes_t) (g : Guards) (s t : ProcState) : Prop :=
  ∃ fuel, FwPrTestCase1Execute eTestCase1Init g fuel s = some t

/-- States reached from Stopped (with an empty log) by calls of
`FwPrTestCase1Start`, `FwPrTestCase1Stop` and returning calls of
`FwPrTestCase1Execute`, each with its own guard results. -/
inductive Reachable (eTestCase1Init : eTestCase1Nodes_t) : ProcState → Prop
  | stopped : Reachable eTestCase1Init ⟨eTestCase1Stopped, []⟩
  | start {s : ProcState} : Reachable eTestCase1Init s →
      Reachable eTestCase1Init (FwPrTestCase1Start eTestCase1Init s)
  | stop {s : ProcState} : Reachable eTestCase1Init s →
      Reachable eTestCase1Init (FwPrTestCase1Stop s)
  | execute {s t : ProcState} (g : Guards) : Reachable eTestCase1Init s →
      ExecuteReturns eTestCase1Init g s t → Reachable eTestCase1Init t

/-- The state of the loop `while (1) {...}` after `n` passes through its body, or
at the `return` statement when one is executed sooner. -/
def ExecuteLoopState (eTestCase1Init : eTestCase1Nodes_t) (g : Guards) :
    Nat → ProcState → ProcState
  | 0, s => s
  | n + 1, s =>
    match ExecuteLoopBody eTestCase1Init g s with
    | .returned s => s
    | .continued s => ExecuteLoopState eTestCase1Init g n s

/-- The log carries no invocation of the action N5 and none of the wait guard
N3N5. -/
def noWaitBlockCall (log : List Event) : Prop :=
  Callback.FwPrTestCase1N5 ∉ log.map Event.callback ∧
    Callback.FwPrTestCase1N3N5 ∉ log.map Event.callback

/-! ## Auxiliary facts about the loop -/

/-- If some property of states is kept by every pass of the loop body, and every
pass from such a state ends without `return`, the loop never returns from such a
state. -/
theorem ExecuteLoop_none_of_invariant (eTestCase1Init : eTestCase1Nodes_t) (g : Guards)
    (P : ProcState → Prop)
    (hP : ∀ s, P s → ∃ t, ExecuteLoopBody eTestCase1Init g s = .continued t ∧ P t) :
    ∀ (fuel : Nat) (s : ProcState), P s → ExecuteLoop eTestCase1Init g fuel s = none := by
  intro fuel
  induction fuel with
  | zero => intro s _; rfl
  | succ n ih =>
    intro s hs
    obtain ⟨t, ht, hPt⟩ := hP s hs
    simp only [ExecuteLoop, ht]
    exact ih t hPt

/-- The first block of the loop body does nothing when `curNode` is not
`eTestCase1Init`. -/
theorem ExecuteBlockInit_of_ne (eTestCase1Init : eTestCase1Nodes_t) (g : Guards)
    (s : ProcState) (h : s.curNode ≠ eTestCase1Init) :
    ExecuteBlockInit eTestCase1Init g s = .continued s := by
  unfold ExecuteBlockInit
  rw [if_neg h]

/-- The second block of the loop body does nothing when `curNode` is not
`eTestCase1N3`. -/
theorem ExecuteBlockN3_of_ne (g : Guards) (s : ProcState) (h : s.curNode ≠ eTestCase1N3) :
    ExecuteBlockN3 g s = .continued s := by
  unfold ExecuteBlockN3
  rw [if_neg h]

/-- The first block of the loop body, entered with `curNode` equal to
`eTestCase1Init` and both decision guards different from 1: the actions N1 and N3
are invoked, and `curNode` is left at `eTestCase1N1`. -/
theorem ExecuteBlockInit_fallthrough (eTestCase1Init : eTestCase1Nodes_t) (g : Guards)
    (h1 : g.FwPrTestCase1Decision1N2 ≠ 1) (h2 : g.FwPrTestCase1Decision1Final ≠ 1)
    (s : ProcState) (hs : s.curNode = eTestCase1Init) :
    ExecuteBlockInit eTestCase1Init g s = .continued
      ⟨eTestCase1N1, s.log ++ [⟨.FwPrTestCase1N1, eTestCase1N1⟩,
        ⟨.FwPrTestCase1Decision1N2, eTestCase1N1⟩, ⟨.FwPrTestCase1Decision1Final, eTestCase1N1⟩,
        ⟨.FwPrTestCase1N3, eTestCase1N1⟩]⟩ := by
  unfold ExecuteBlockInit
  rw [if_pos hs]
  simp only [if_neg h1, if_neg h2]
  simp [invoke, setCurNode]

/-- With both decision guards different from 1, a pass of the loop body made with
`curNode` equal to `eTestCase1Init` or to `eTestCase1N1` ends without `return` and
with `curNode` equal to `eTestCase1Init` or to `eTestCase1N1`. -/
theorem ExecuteLoopBody_fallthrough (eTestCase1Init : eTestCase1Nodes_t) (g : Guards)
    (h1 : g.FwPrTestCase1Decision1N2 ≠ 1) (h2 : g.FwPrTestCase1Decision1Final ≠ 1)
    (s : ProcState) (hs : s.curNode = eTestCase1Init ∨ s.curNode = eTestCase1N1) :
    ∃ t, ExecuteLoopBody eTestCase1Init g s = .continued t ∧
      (t.curNode = eTestCase1Init ∨ t.curNode = eTestCase1N1) := by
  have h13 : eTestCase1N1 ≠ eTestCase1N3 := by decide
  by_cases hc : s.curNode = eTestCase1Init
  · refine ⟨⟨eTestCase1N1, s.log ++ [⟨.FwPrTestCase1N1, eTestCase1N1⟩,
        ⟨.FwPrTestCase1Decision1N2, eTestCase1N1⟩, ⟨.FwPrTestCase1Decision1Final, eTestCase1N1⟩,
        ⟨.FwPrTestCase1N3, eTestCase1N1⟩]⟩, ?_, Or.inr rfl⟩
    unfold ExecuteLoopBody
    rw [ExecuteBlockInit_fallthrough eTestCase1Init g h1 h2 s hc]
    exact ExecuteBlockN3_of_ne g _ h13
  · have hn : s.curNode = eTestCase1N1 := hs.resolve_left hc
    refine ⟨s, ?_, Or.inr hn⟩
    unfold ExecuteLoopBody
    rw [ExecuteBlockInit_of_ne eTestCase1Init g s hc]
    exact ExecuteBlockN3_of_ne g s (by rw [hn]; exact h13)

/-- With `eTestCase1Init` different from `eTestCase1N3` and the wait guard different
from 0, a pass of the loop body made with `curNode` equal to `eTestCase1N3` ends
without `return` and with `curNode` still `eTestCase1N3`. -/
theorem ExecuteLoopBody_wait_ready (eTestCase1Init : eTestCase1Nodes_t) (g : Guards)
    (hInit : eTestCase1Init ≠ eTestCase1N3) (hw : g.FwPrTestCase1N3N5 ≠ 0)
    (s : ProcState) (hc : s.curNode = eTestCase1N3) :
    ∃ t, ExecuteLoopBody eTestCase1Init g s = .continued t ∧ t.curNode = eTestCase1N3 := by
  have hne : s.curNode ≠ eTestCase1Init := by rw [hc]; exact fun h => hInit h.symm
  refine ⟨invoke .FwPrTestCase1N3N5 s, ?_, hc⟩
  unfold ExecuteLoopBody
  rw [ExecuteBlockInit_of_ne eTestCase1Init g s hne]
  show ExecuteBlockN3 g s = _
  unfold ExecuteBlockN3
  rw [if_pos hc]
  simp only [if_neg hw]

/-- A pass of the loop body made with `curNode` different from both
`eTestCase1Init` and `eTestCase1N3` changes nothing and ends without `return`. -/
theorem ExecuteLoopBody_no_block (eTestCase1Init : eTestCase1Nodes_t) (g : Guards)
    (s : ProcState) (h1 : s.curNode ≠ eTestCase1Init) (h3 : s.curNode ≠ eTestCase1N3) :
    ExecuteLoopBody eTestCase1Init g s = .continued s := by
  unfold ExecuteLoopBody
  rw [ExecuteBlockInit_of_ne eTestCase1Init g s h1]
  exact ExecuteBlockN3_of_ne g s h3

/-- The loop never returns from a state whose `curNode` is different from both
`eTestCase1Init` and `eTestCase1N3`. -/
theorem ExecuteLoop_no_block (eTestCase1Init : eTestCase1Nodes_t) (g : Guards)
    (s : ProcState) (h1 : s.curNode ≠ eTestCase1Init) (h3 : s.curNode ≠ eTestCase1N3)
    (fuel : Nat) : ExecuteLoop eTestCase1Init g fuel s = none :=
  ExecuteLoop_none_of_invariant eTestCase1Init g (fun t => t = s)
    (fun t ht => ⟨s, by rw [ht]; exact ExecuteLoopBody_no_block eTestCase1Init g s h1 h3, rfl⟩)
    fuel s rfl

/-- The loop never returns when it is entered with `curNode` equal to
`eTestCase1Init` and both decision guards give a value other than 1. -/
theorem ExecuteLoop_fallthrough (eTestCase1Init : eTestCase1Nodes_t) (g : Guards)
    (h1 : g.FwPrTestCase1Decision1N2 ≠ 1) (h2 : g.FwPrTestCase1Decision1Final ≠ 1)
    (s : ProcState) (hs : s.curNode = eTestCase1Init) (fuel : Nat) :
    ExecuteLoop eTestCase1Init g fuel s = none :=
  ExecuteLoop_none_of_invariant eTestCase1Init g
    (fun t => t.curNode = eTestCase1Init ∨ t.curNode = eTestCase1N1)
    (ExecuteLoopBody_fallthrough eTestCase1Init g h1 h2) fuel s (Or.inl hs)

/-- The state after `FwPrTestCase1Start` from Stopped. -/
theorem FwPrTestCase1Start_stopped (eTestCase1Init : eTestCase1Nodes_t) (log : List Event) :
    FwPrTestCase1Start eTestCase1Init ⟨eTestCase1Stopped, log⟩ = ⟨eTestCase1Init, log⟩ := by
  simp [FwPrTestCase1Start, setCurNode]

/-- The first block of the loop body, entered with `curNode` equal to
`eTestCase1Init` and the first decision guard giving 1: N1, N2 and N4 are invoked,
each with `curNode` at its own node, and the function returns with
`eTestCase1Stopped`; the second decision guard is not evaluated. -/
theorem ExecuteBlockInit_branch_N2 (eTestCase1Init : eTestCase1Nodes_t) (g : Guards)
    (h1 : g.FwPrTestCase1Decision1N2 = 1) (s : ProcState) (hs : s.curNode = eTestCase1Init) :
    ExecuteBlockInit eTestCase1Init g s = .returned
      ⟨eTestCase1Stopped, s.log ++ [⟨.FwPrTestCase1N1, eTestCase1N1⟩,
        ⟨.FwPrTestCase1Decision1N2, eTestCase1N1⟩, ⟨.FwPrTestCase1N2, eTestCase1N2⟩,
        ⟨.FwPrTestCase1N4, eTestCase1N4⟩]⟩ := by
  unfold ExecuteBlockInit
  rw [if_pos hs]
  simp only [if_pos h1]
  simp [invoke, setCurNode]

/-- The first block of the loop body, entered with `curNode` equal to
`eTestCase1Init`, the first decision guard giving a value other than 1 and the
second giving 1: only N1 and the two guards are invoked, and the function returns
with `eTestCase1Stopped`. -/
theorem ExecuteBlockInit_final (eTestCase1Init : eTestCase1Nodes_t) (g : Guards)
    (h1 : g.FwPrTestCase1Decision1N2 ≠ 1) (h2 : g.FwPrTestCase1Decision1Final = 1)
    (s : ProcState) (hs : s.curNode = eTestCase1Init) :
    ExecuteBlockInit eTestCase1Init g s = .returned
      ⟨eTestCase1Stopped, s.log ++ [⟨.FwPrTestCase1N1, eTestCase1N1⟩,
        ⟨.FwPrTestCase1Decision1N2, eTestCase1N1⟩,
        ⟨.FwPrTestCase1Decision1Final, eTestCase1N1⟩]⟩ := by
  unfold ExecuteBlockInit
  rw [if_pos hs]
  simp only [if_neg h1, if_pos h2]
  simp [invoke, setCurNode]

/-- A pass of the loop body made with `curNode` equal to `eTestCase1Init` or
`eTestCase1N1` either returns with `eTestCase1Stopped` or ends with `curNode`
equal to `eTestCase1N1`, and in both cases invokes neither N5 nor the wait
guard. -/
theorem ExecuteLoopBody_from_init (eTestCase1Init : eTestCase1Nodes_t) (g : Guards)
    (s : ProcState) (hs : s.curNode = eTestCase1Init ∨ s.curNode = eTestCase1N1)
    (hl : noWaitBlockCall s.log) :
    (∃ t, ExecuteLoopBody eTestCase1Init g s = .returned t ∧
        t.curNode = eTestCase1Stopped ∧ noWaitBlockCall t.log) ∨
    (∃ t, ExecuteLoopBody eTestCase1Init g s = .continued t ∧
        t.curNode = eTestCase1N1 ∧ noWaitBlockCall t.log) := by
  have h13 : eTestCase1N1 ≠ eTestCase1N3 := by decide
  obtain ⟨hl5, hlw⟩ := hl
  by_cases hc : s.curNode = eTestCase1Init
  · by_cases h1 : g.FwPrTestCase1Decision1N2 = 1
    · refine Or.inl ⟨⟨eTestCase1Stopped, s.log ++ [⟨.FwPrTestCase1N1, eTestCase1N1⟩,
        ⟨.FwPrTestCase1Decision1N2, eTestCase1N1⟩, ⟨.FwPrTestCase1N2, eTestCase1N2⟩,
        ⟨.FwPrTestCase1N4, eTestCase1N4⟩]⟩, ?_, rfl, ?_⟩
      · unfold ExecuteLoopBody
        rw [ExecuteBlockInit_branch_N2 eTestCase1Init g h1 s hc]
      · constructor <;> simp [hl5, hlw]
    · by_cases h2 : g.FwPrTestCase1Decision1Final = 1
      · refine Or.inl ⟨⟨eTestCase1Stopped, s.log ++ [⟨.FwPrTestCase1N1, eTestCase1N1⟩,
          ⟨.FwPrTestCase1Decision1N2, eTestCase1N1⟩,
          ⟨.FwPrTestCase1Decision1Final, eTestCase1N1⟩]⟩, ?_, rfl, ?_⟩
        · unfold ExecuteLoopBody
          rw [ExecuteBlockInit_final eTestCase1Init g h1 h2 s hc]
        · constructor <;> simp [hl5, hlw]
      · refine Or.inr ⟨⟨eTestCase1N1, s.log ++ [⟨.FwPrTestCase1N1, eTestCase1N1⟩,
          ⟨.FwPrTestCase1Decision1N2, eTestCase1N1⟩,
          ⟨.FwPrTestCase1Decision1Final, eTestCase1N1⟩,
          ⟨.FwPrTestCase1N3, eTestCase1N1⟩]⟩, ?_, rfl, ?_⟩
        · unfold ExecuteLoopBody
          rw [ExecuteBlockInit_fallthrough eTestCase1Init g h1 h2 s hc]
          exact ExecuteBlockN3_of_ne g _ h13
        · constructor <;> simp [hl5, hlw]
  · have hn : s.curNode = eTestCase1N1 := hs.resolve_left hc
    refine Or.inr ⟨s, ?_, hn, hl5, hlw⟩
    exact ExecuteLoopBody_no_block eTestCase1Init g s hc (by rw [hn]; exact h13)

/-- When the loop, entered with `curNode` equal to `eTestCase1Init` or
`eTestCase1N1`, returns, it returns with `eTestCase1Stopped` and without having
invoked N5 or the wait guard. -/
theorem ExecuteLoop_from_init (eTestCase1Init : eTestCase1Nodes_t) (g : Guards) :
    ∀ (fuel : Nat) (s t : ProcState),
      (s.curNode = eTestCase1Init ∨ s.curNode = eTestCase1N1) → noWaitBlockCall s.log →
      ExecuteLoop eTestCase1Init g fuel s = some t →
      t.curNode = eTestCase1Stopped ∧ noWaitBlockCall t.log := by
  intro fuel
  induction fuel with
  | zero => intro s t _ _ h; simp [ExecuteLoop] at h
  | succ n ih =>
    intro s t hs hl h
    rcases ExecuteLoopBody_from_init eTestCase1Init g s hs hl with
      ⟨u, hu, hc, hlu⟩ | ⟨u, hu, hc, hlu⟩
    · simp only [ExecuteLoop, hu, Option.some.injEq] at h
      subst h
      exact ⟨hc, hlu⟩
    · simp only [ExecuteLoop, hu] at h
      exact ih u t (Or.inr hc) hlu h

/-- Every state reached from Stopped by calls of Start, Stop and returning calls
of Execute has `curNode` equal to `eTestCase1Stopped` or `eTestCase1Init`, and a
log without any invocation of N5 or of the wait guard. -/
theorem Reachable_invariant (eTestCase1Init : eTestCase1Nodes_t) (s : ProcState)
    (hs : Reachable eTestCase1Init s) :
    (s.curNode = eTestCase1Stopped ∨ s.curNode = eTestCase1Init) ∧ noWaitBlockCall s.log := by
  induction hs with
  | stopped => exact ⟨Or.inl rfl, by constructor <;> simp⟩
  | @start s _ ih =>
    obtain ⟨hc, hl⟩ := ih
    by_cases h : s.curNode = eTestCase1Stopped
    · exact ⟨Or.inr (by simp [FwPrTestCase1Start, setCurNode, h]),
        by simpa [FwPrTestCase1Start, setCurNode, h] using hl⟩
    · have : FwPrTestCase1Start eTestCase1Init s = s := by simp [FwPrTestCase1Start, h]
      rw [this]
      exact ⟨hc, hl⟩
  | @stop s _ ih =>
    obtain ⟨_, hl⟩ := ih
    by_cases h : s.curNode = eTestCase1Stopped
    · exact ⟨Or.inl (by simp [FwPrTestCase1Stop, h]), by simpa [FwPrTestCase1Stop, h] using hl⟩
    · exact ⟨Or.inl (by simp [FwPrTestCase1Stop, setCurNode, h]),
        by simpa [FwPrTestCase1Stop, setCurNode, h] using hl⟩
  | @execute s t g _ hex ih =>
    obtain ⟨hc, hl⟩ := ih
    obtain ⟨fuel, hf⟩ := hex
    by_cases h : s.curNode = eTestCase1Stopped
    · simp only [FwPrTestCase1Execute, if_pos h, Option.some.injEq] at hf
      subst hf
      exact ⟨Or.inl h, hl⟩
    · simp only [FwPrTestCase1Execute, if_neg h] at hf
      have := ExecuteLoop_from_init eTestCase1Init g fuel s t (Or.inl (hc.resolve_left h)) hl hf
      exact ⟨Or.inl this.1, this.2⟩

/-- At every pass of a loop entered with `curNode` equal to `eTestCase1Init` or
`eTestCase1N1`, `curNode` is one of `eTestCase1Stopped`, `eTestCase1Init`,
`eTestCase1N1`, and neither N5 nor the wait guard has been invoked. -/
theorem ExecuteLoopState_from_init (eTestCase1Init : eTestCase1Nodes_t) (g : Guards) :
    ∀ (n : Nat) (s : ProcState),
      (s.curNode = eTestCase1Init ∨ s.curNode = eTestCase1N1) → noWaitBlockCall s.log →
      ((ExecuteLoopState eTestCase1Init g n s).curNode = eTestCase1Stopped ∨
        (ExecuteLoopState eTestCase1Init g n s).curNode = eTestCase1Init ∨
        (ExecuteLoopState eTestCase1Init g n s).curNode = eTestCase1N1) ∧
      noWaitBlockCall (ExecuteLoopState eTestCase1Init g n s).log := by
  intro n
  induction n with
  | zero =>
    intro s hs hl
    exact ⟨Or.inr hs, hl⟩
  | succ n ih =>
    intro s hs hl
    rcases ExecuteLoopBody_from_init eTestCase1Init g s hs hl with
      ⟨u, hu, hc, hlu⟩ | ⟨u, hu, hc, hlu⟩
    · simp only [ExecuteLoopState, hu]
      exact ⟨Or.inl hc, hlu⟩
    · simp only [ExecuteLoopState, hu]
      exact ih u (Or.inr hc) hlu

/-- An action absent from the callbacks of a log is absent from its actions. -/
theorem not_mem_actionsOf (c : Callback) (log : List Event)
    (h : c ∉ log.map Event.callback) : c ∉ actionsOf log := by
  intro hc
  exact h (List.mem_filter.mp hc).1

/-- A call of Execute made with `curNode` equal to `eTestCase1Init` (not Stopped)
and the first decision guard giving 1 returns after one pass. -/
theorem Execute_init_branch_N2 (eTestCase1Init : eTestCase1Nodes_t)
    (hInit : eTestCase1Init ≠ eTestCase1Stopped) (g : Guards)
    (h1 : g.FwPrTestCase1Decision1N2 = 1) (log : List Event) (fuel : Nat) :
    FwPrTestCase1Execute eTestCase1Init g (fuel + 1) ⟨eTestCase1Init, log⟩
      = some ⟨eTestCase1Stopped, log ++ [⟨.FwPrTestCase1N1, eTestCase1N1⟩,
          ⟨.FwPrTestCase1Decision1N2, eTestCase1N1⟩, ⟨.FwPrTestCase1N2, eTestCase1N2⟩,
          ⟨.FwPrTestCase1N4, eTestCase1N4⟩]⟩ := by
  unfold FwPrTestCase1Execute
  rw [if_neg hInit]
  unfold ExecuteLoop ExecuteLoopBody
  rw [ExecuteBlockInit_branch_N2 eTestCase1Init g h1 ⟨eTestCase1Init, log⟩ rfl]

/-- A call of Execute made with `curNode` equal to `eTestCase1Init` (not Stopped),
the first decision guard giving a value other than 1 and the second giving 1
returns after one pass. -/
theorem Execute_init_final (eTestCase1Init : eTestCase1Nodes_t)
    (hInit : eTestCase1Init ≠ eTestCase1Stopped) (g : Guards)
    (h1 : g.FwPrTestCase1Decision1N2 ≠ 1) (h2 : g.FwPrTestCase1Decision1Final = 1)
    (log : List Event) (fuel : Nat) :
    FwPrTestCase1Execute eTestCase1Init g (fuel + 1) ⟨eTestCase1Init, log⟩
      = some ⟨eTestCase1Stopped, log ++ [⟨.FwPrTestCase1N1, eTestCase1N1⟩,
          ⟨.FwPrTestCase1Decision1N2, eTestCase1N1⟩,
          ⟨.FwPrTestCase1Decision1Final, eTestCase1N1⟩]⟩ := by
  unfold FwPrTestCase1Execute
  rw [if_neg hInit]
  unfold ExecuteLoop ExecuteLoopBody
  rw [ExecuteBlockInit_final eTestCase1Init g h1 h2 ⟨eTestCase1Init, log⟩ rfl]

/-- A call of Execute made with `curNode` equal to `eTestCase1Init` (not Stopped)
and both decision guards giving a value other than 1 does not return. -/
theorem Execute_init_fallthrough (eTestCase1Init : eTestCase1Nodes_t)
    (hInit : eTestCase1Init ≠ eTestCase1Stopped) (g : Guards)
    (h1 : g.FwPrTestCase1Decision1N2 ≠ 1) (h2 : g.FwPrTestCase1Decision1Final ≠ 1)
    (log : List Event) (fuel : Nat) :
    FwPrTestCase1Execute eTestCase1Init g fuel ⟨eTestCase1Init, log⟩ = none := by
  unfold FwPrTestCase1Execute
  rw [if_neg hInit]
  exact ExecuteLoop_fallthrough eTestCase1Init g h1 h2 _ rfl fuel

/-- The wait block run on a state with `curNode` equal to `eTestCase1N3` (a state
that no sequence of calls from Stopped produces), with the guard
`FwPrTestCase1N3N5` giving a non-zero value: a pass of the loop only evaluates the
guard and leaves `curNode` at `eTestCase1N3`, N5 is not invoked, and the call does
not return, whatever the fuel. The initial node is assumed different from
`eTestCase1N3`. -/
theorem Execute_at_N3_ready (eTestCase1Init : eTestCase1Nodes_t)
    (hInit : eTestCase1Init ≠ eTestCase1N3) (d1 d2 wait : Int) (hw : wait ≠ 0)
    (log : List Event) (fuel : Nat) :
    ExecuteLoopBody eTestCase1Init ⟨d1, d2, wait⟩ ⟨eTestCase1N3, log⟩
      = .continued ⟨eTestCase1N3, log ++ [⟨.FwPrTestCase1N3N5, eTestCase1N3⟩]⟩
    ∧ FwPrTestCase1Execute eTestCase1Init ⟨d1, d2, wait⟩ fuel ⟨eTestCase1N3, log⟩ = none := by
  have hne : (⟨eTestCase1N3, log⟩ : ProcState).curNode ≠ eTestCase1Init :=
    fun h => hInit h.symm
  constructor
  · unfold ExecuteLoopBody
    rw [ExecuteBlockInit_of_ne eTestCase1Init _ _ hne]
    simp [ExecuteBlockN3, hw, invoke]
  · unfold FwPrTestCase1Execute
    rw [if_neg (by show ¬ eTestCase1N3 = eTestCase1Stopped; decide)]
    exact ExecuteLoop_none_of_invariant eTestCase1Init _ (fun t => t.curNode = eTestCase1N3)
      (ExecuteLoopBody_wait_ready eTestCase1Init _ hInit hw) fuel _ rfl

/-- The wait block run on a state with `curNode` equal to `eTestCase1N3` (a state
that no sequence of calls from Stopped produces), with the guard
`FwPrTestCase1N3N5` giving 0: the call returns after evaluating the guard only, with
`curNode` set to `eTestCase1N5` (the statement executed is
`return curNode = eTestCase1N5;`), and a second call, whatever the guards give,
does not return. The initial node is assumed different from `eTestCase1N3` and
`eTestCase1N5`. -/
theorem Execute_at_N3_not_ready (eTestCase1Init : eTestCase1Nodes_t)
    (hInit3 : eTestCase1Init ≠ eTestCase1N3) (hInit5 : eTestCase1Init ≠ eTestCase1N5)
    (d1 d2 : Int) (log : List Event) (fuel : Nat) (g2 : Guards) (fuel2 : Nat) :
    FwPrTestCase1Execute eTestCase1Init ⟨d1, d2, 0⟩ (fuel + 1) ⟨eTestCase1N3, log⟩
      = some ⟨eTestCase1N5, log ++ [⟨.FwPrTestCase1N3N5, eTestCase1N3⟩]⟩
    ∧ FwPrTestCase1Execute eTestCase1Init g2 fuel2
        ⟨eTestCase1N5, log ++ [⟨.FwPrTestCase1N3N5, eTestCase1N3⟩]⟩ = none := by
  have hne : (⟨eTestCase1N3, log⟩ : ProcState).curNode ≠ eTestCase1Init :=
    fun h => hInit3 h.symm
  constructor
  · unfold FwPrTestCase1Execute
    rw [if_neg (by show ¬ eTestCase1N3 = eTestCase1Stopped; decide)]
    unfold ExecuteLoop ExecuteLoopBody
    rw [ExecuteBlockInit_of_ne eTestCase1Init _ _ hne]
    simp [ExecuteBlockN3, invoke, setCurNode]
  · unfold FwPrTestCase1Execute
    rw [if_neg (by show ¬ eTestCase1N5 = eTestCase1Stopped; decide)]
    exact ExecuteLoop_no_block eTestCase1Init g2 _ (fun h => hInit5 h.symm)
      (by show eTestCase1N5 ≠ eTestCase1N3; decide) fuel2

/-- No state reached from Stopped by calls of Start, Stop and Execute has
`curNode` equal to `eTestCase1N3` or `eTestCase1N5`, when the initial node is
neither of them: the wait block of Execute is never run. -/
theorem Reachable_not_wait_block (eTestCase1Init : eTestCase1Nodes_t)
    (hInit3 : eTestCase1Init ≠ eTestCase1N3) (hInit5 : eTestCase1Init ≠ eTestCase1N5)
    (s : ProcState) (hs : Reachable eTestCase1Init s) :
    s.curNode ≠ eTestCase1N3 ∧ s.curNode ≠ eTestCase1N5 := by
  have h03 : eTestCase1Stopped ≠ eTestCase1N3 := by decide
  have h05 : eTestCase1Stopped ≠ eTestCase1N5 := by decide
  rcases (Reachable_invariant eTestCase1Init s hs).1 with h | h <;> rw [h]
  · exact ⟨h03, h05⟩
  · exact ⟨hInit3, hInit5⟩

/-! ## The claims -/

/-- C1 (Scenario B). From Stopped, `FwPrTestCase1Start` followed by one call of
`FwPrTestCase1Execute` in which `FwPrTestCase1Decision1N2` gives 1: the call returns
(one pass of the loop is enough), the callbacks invoked are N1, the guard
Decision1N2, N2 and N4, each action with `curNode` already at its node, so the
actions invoked are exactly N1, N2, N4 in that order; `curNode` ends as
`eTestCase1Stopped` and `FwPrTestCase1IsStarted` gives 0; this for every result of
the two other guards. The initial node is assumed different from Stopped. -/
theorem scenarioB_branch_to_N2 (eTestCase1Init : eTestCase1Nodes_t)
    (hInit : eTestCase1Init ≠ eTestCase1Stopped) (dFinal wait : Int) (log : List Event)
    (fuel : Nat) :
    FwPrTestCase1Execute eTestCase1Init ⟨1, dFinal, wait⟩ (fuel + 1)
        (FwPrTestCase1Start eTestCase1Init ⟨eTestCase1Stopped, log⟩)
      = some ⟨eTestCase1Stopped, log ++ [⟨.FwPrTestCase1N1, eTestCase1N1⟩,
          ⟨.FwPrTestCase1Decision1N2, eTestCase1N1⟩, ⟨.FwPrTestCase1N2, eTestCase1N2⟩,
          ⟨.FwPrTestCase1N4, eTestCase1N4⟩]⟩
    ∧ actionsOf [⟨.FwPrTestCase1N1, eTestCase1N1⟩,
          ⟨.FwPrTestCase1Decision1N2, eTestCase1N1⟩, ⟨.FwPrTestCase1N2, eTestCase1N2⟩,
          ⟨.FwPrTestCase1N4, eTestCase1N4⟩]
        = [.FwPrTestCase1N1, .FwPrTestCase1N2, .FwPrTestCase1N4]
    ∧ FwPrTestCase1IsStarted ⟨eTestCase1Stopped, log ++ [⟨.FwPrTestCase1N1, eTestCase1N1⟩,
          ⟨.FwPrTestCase1Decision1N2, eTestCase1N1⟩, ⟨.FwPrTestCase1N2, eTestCase1N2⟩,
          ⟨.FwPrTestCase1N4, eTestCase1N4⟩]⟩ = 0 := by
  refine ⟨?_, by decide, by simp [FwPrTestCase1IsStarted]⟩
  rw [FwPrTestCase1Start_stopped]
  simp [FwPrTestCase1Execute, ExecuteLoop, ExecuteLoopBody, ExecuteBlockInit, hInit, invoke,
    setCurNode]

/-- Witness of C1 with `eTestCase1Init = 6`, the other guards giving 0, an empty
log and one pass of fuel. -/
theorem scenarioB_branch_to_N2_witness :
    (6 : eTestCase1Nodes_t) ≠ eTestCase1Stopped ∧
    (FwPrTestCase1Execute 6 ⟨1, 0, 0⟩ (0 + 1)
        (FwPrTestCase1Start 6 ⟨eTestCase1Stopped, []⟩)
      = some ⟨eTestCase1Stopped, [] ++ [⟨.FwPrTestCase1N1, eTestCase1N1⟩,
          ⟨.FwPrTestCase1Decision1N2, eTestCase1N1⟩, ⟨.FwPrTestCase1N2, eTestCase1N2⟩,
          ⟨.FwPrTestCase1N4, eTestCase1N4⟩]⟩
    ∧ actionsOf [⟨.FwPrTestCase1N1, eTestCase1N1⟩,
          ⟨.FwPrTestCase1Decision1N2, eTestCase1N1⟩, ⟨.FwPrTestCase1N2, eTestCase1N2⟩,
          ⟨.FwPrTestCase1N4, eTestCase1N4⟩]
        = [.FwPrTestCase1N1, .FwPrTestCase1N2, .FwPrTestCase1N4]
    ∧ FwPrTestCase1IsStarted ⟨eTestCase1Stopped, [] ++ [⟨.FwPrTestCase1N1, eTestCase1N1⟩,
          ⟨.FwPrTestCase1Decision1N2, eTestCase1N1⟩, ⟨.FwPrTestCase1N2, eTestCase1N2⟩,
          ⟨.FwPrTestCase1N4, eTestCase1N4⟩]⟩ = 0) :=
  ⟨by decide, scenarioB_branch_to_N2 6 (by decide) 0 0 [] 0⟩

/-- C2 (Scenario C). From Stopped, `FwPrTestCase1Start` followed by one call of
`FwPrTestCase1Execute` in which `FwPrTestCase1Decision1N2` gives 0 and
`FwPrTestCase1Decision1Final` gives 1: the call returns with `curNode` equal to
`eTestCase1Stopped`; the callbacks invoked are N1 and the two decision guards, so
the only action invoked is N1. The initial node is assumed different from
Stopped. -/
theorem scenarioC_final_guard (eTestCase1Init : eTestCase1Nodes_t)
    (hInit : eTestCase1Init ≠ eTestCase1Stopped) (wait : Int) (log : List Event)
    (fuel : Nat) :
    FwPrTestCase1Execute eTestCase1Init ⟨0, 1, wait⟩ (fuel + 1)
        (FwPrTestCase1Start eTestCase1Init ⟨eTestCase1Stopped, log⟩)
      = some ⟨eTestCase1Stopped, log ++ [⟨.FwPrTestCase1N1, eTestCase1N1⟩,
          ⟨.FwPrTestCase1Decision1N2, eTestCase1N1⟩,
          ⟨.FwPrTestCase1Decision1Final, eTestCase1N1⟩]⟩
    ∧ actionsOf [⟨.FwPrTestCase1N1, eTestCase1N1⟩,
          ⟨.FwPrTestCase1Decision1N2, eTestCase1N1⟩,
          ⟨.FwPrTestCase1Decision1Final, eTestCase1N1⟩]
        = [.FwPrTestCase1N1] := by
  refine ⟨?_, by decide⟩
  rw [FwPrTestCase1Start_stopped]
  simp [FwPrTestCase1Execute, ExecuteLoop, ExecuteLoopBody, ExecuteBlockInit, hInit, invoke,
    setCurNode]

/-- Witness of C2 with `eTestCase1Init = 6`, the wait guard giving 0, an empty log
and one pass of fuel. -/
theorem scenarioC_final_guard_witness :
    (6 : eTestCase1Nodes_t) ≠ eTestCase1Stopped ∧
    (FwPrTestCase1Execute 6 ⟨0, 1, 0⟩ (0 + 1)
        (FwPrTestCase1Start 6 ⟨eTestCase1Stopped, []⟩)
      = some ⟨eTestCase1Stopped, [] ++ [⟨.FwPrTestCase1N1, eTestCase1N1⟩,
          ⟨.FwPrTestCase1Decision1N2, eTestCase1N1⟩,
          ⟨.FwPrTestCase1Decision1Final, eTestCase1N1⟩]⟩
    ∧ actionsOf [⟨.FwPrTestCase1N1, eTestCase1N1⟩,
          ⟨.FwPrTestCase1Decision1N2, eTestCase1N1⟩,
          ⟨.FwPrTestCase1Decision1Final, eTestCase1N1⟩]
        = [.FwPrTestCase1N1]) :=
  ⟨by decide, scenarioC_final_guard 6 (by decide) 0 [] 0⟩

/-- C3 (Scenario D, first cycle), evaluated on the code. From Stopped,
`FwPrTestCase1Start` followed by a call of `FwPrTestCase1Execute` in which both
decision guards give 0: the first pass of the loop invokes N1, the two guards and
N3, all with `curNode` equal to `eTestCase1N1`, and leaves `curNode` at
`eTestCase1N1` (not `eTestCase1N3`); the wait guard is not evaluated and the call
does not return, whatever the fuel. The initial node is assumed different from
Stopped. -/
theorem scenarioD_first_cycle_never_returns (eTestCase1Init : eTestCase1Nodes_t)
    (hInit : eTestCase1Init ≠ eTestCase1Stopped) (wait : Int) (log : List Event)
    (fuel : Nat) :
    ExecuteLoopBody eTestCase1Init ⟨0, 0, wait⟩
        (FwPrTestCase1Start eTestCase1Init ⟨eTestCase1Stopped, log⟩)
      = .continued ⟨eTestCase1N1, log ++ [⟨.FwPrTestCase1N1, eTestCase1N1⟩,
          ⟨.FwPrTestCase1Decision1N2, eTestCase1N1⟩,
          ⟨.FwPrTestCase1Decision1Final, eTestCase1N1⟩, ⟨.FwPrTestCase1N3, eTestCase1N1⟩]⟩
    ∧ FwPrTestCase1Execute eTestCase1Init ⟨0, 0, wait⟩ fuel
        (FwPrTestCase1Start eTestCase1Init ⟨eTestCase1Stopped, log⟩) = none := by
  have h1 : (⟨0, 0, wait⟩ : Guards).FwPrTestCase1Decision1N2 ≠ 1 := by
    show (0 : Int) ≠ 1
    decide
  have h2 : (⟨0, 0, wait⟩ : Guards).FwPrTestCase1Decision1Final ≠ 1 := by
    show (0 : Int) ≠ 1
    decide
  rw [FwPrTestCase1Start_stopped]
  constructor
  · unfold ExecuteLoopBody
    rw [ExecuteBlockInit_fallthrough eTestCase1Init _ h1 h2 ⟨eTestCase1Init, log⟩ rfl]
    exact ExecuteBlockN3_of_ne _ _ (by show eTestCase1N1 ≠ eTestCase1N3; decide)
  · unfold FwPrTestCase1Execute
    rw [if_neg hInit]
    exact ExecuteLoop_fallthrough eTestCase1Init _ h1 h2 _ rfl fuel

/-- Witness of C3 with `eTestCase1Init = 6`, the wait guard giving 0, an empty log
and fuel 7. -/
theorem scenarioD_first_cycle_never_returns_witness :
    (6 : eTestCase1Nodes_t) ≠ eTestCase1Stopped ∧
    (ExecuteLoopBody 6 ⟨0, 0, 0⟩ (FwPrTestCase1Start 6 ⟨eTestCase1Stopped, []⟩)
      = .continued ⟨eTestCase1N1, [] ++ [⟨.FwPrTestCase1N1, eTestCase1N1⟩,
          ⟨.FwPrTestCase1Decision1N2, eTestCase1N1⟩,
          ⟨.FwPrTestCase1Decision1Final, eTestCase1N1⟩, ⟨.FwPrTestCase1N3, eTestCase1N1⟩]⟩
    ∧ FwPrTestCase1Execute 6 ⟨0, 0, 0⟩ 7 (FwPrTestCase1Start 6 ⟨eTestCase1Stopped, []⟩)
      = none) :=
  ⟨by decide, scenarioD_first_cycle_never_returns 6 (by decide) 0 [] 7⟩

/-- C6 (termination of Execute), evaluated on the code. The state after
`FwPrTestCase1Start` from Stopped is reachable and started, and with the three
guards giving 0 the call of `FwPrTestCase1Execute` made there does not return,
whatever the fuel. The initial node is assumed different from Stopped. -/
theorem execute_not_returning_from_reachable (eTestCase1Init : eTestCase1Nodes_t)
    (hInit : eTestCase1Init ≠ eTestCase1Stopped) (fuel : Nat) :
    Reachable eTestCase1Init (FwPrTestCase1Start eTestCase1Init ⟨eTestCase1Stopped, []⟩)
    ∧ FwPrTestCase1IsStarted (FwPrTestCase1Start eTestCase1Init ⟨eTestCase1Stopped, []⟩) = 1
    ∧ FwPrTestCase1Execute eTestCase1Init ⟨0, 0, 0⟩ fuel
        (FwPrTestCase1Start eTestCase1Init ⟨eTestCase1Stopped, []⟩) = none := by
  refine ⟨Reachable.start Reachable.stopped, ?_, ?_⟩
  · rw [FwPrTestCase1Start_stopped]
    simp [FwPrTestCase1IsStarted, hInit]
  · rw [FwPrTestCase1Start_stopped]
    unfold FwPrTestCase1Execute
    rw [if_neg hInit]
    exact ExecuteLoop_fallthrough eTestCase1Init _ (by decide) (by decide) _ rfl fuel

/-- Witness of C6 with `eTestCase1Init = 6` and fuel 9. -/
theorem execute_not_returning_from_reachable_witness :
    (6 : eTestCase1Nodes_t) ≠ eTestCase1Stopped ∧
    (Reachable 6 (FwPrTestCase1Start 6 ⟨eTestCase1Stopped, []⟩)
    ∧ FwPrTestCase1IsStarted (FwPrTestCase1Start 6 ⟨eTestCase1Stopped, []⟩) = 1
    ∧ FwPrTestCase1Execute 6 ⟨0, 0, 0⟩ 9 (FwPrTestCase1Start 6 ⟨eTestCase1Stopped, []⟩)
      = none) :=
  ⟨by decide, execute_not_returning_from_reachable 6 (by decide) 9⟩

/-- C7 (Scenario A). A call of `FwPrTestCase1Execute` made while `curNode` is
`eTestCase1Stopped` returns with any fuel (also none: no pass of the loop is
made), and leaves `curNode` and the record of callback invocations as they were:
no action and no guard is invoked. -/
theorem scenarioA_execute_when_stopped (eTestCase1Init : eTestCase1Nodes_t) (g : Guards)
    (fuel : Nat) (log : List Event) :
    FwPrTestCase1Execute eTestCase1Init g fuel ⟨eTestCase1Stopped, log⟩
      = some ⟨eTestCase1Stopped, log⟩ := by
  simp [FwPrTestCase1Execute]

/-- C8 (Start contract and P1). For every value of `curNode`, `FwPrTestCase1Start`
sets `curNode` to `eTestCase1Init` if it was `eTestCase1Stopped` and leaves it
unchanged otherwise, and invokes no callback (the log is unchanged); two calls of
Start in succession from Stopped give the same state as one. -/
theorem start_contract (eTestCase1Init : eTestCase1Nodes_t) (s : ProcState) :
    (FwPrTestCase1Start eTestCase1Init s).curNode
      = (if s.curNode = eTestCase1Stopped then eTestCase1Init else s.curNode)
    ∧ (FwPrTestCase1Start eTestCase1Init s).log = s.log
    ∧ FwPrTestCase1Start eTestCase1Init
        (FwPrTestCase1Start eTestCase1Init ⟨eTestCase1Stopped, s.log⟩)
      = FwPrTestCase1Start eTestCase1Init ⟨eTestCase1Stopped, s.log⟩ := by
  refine ⟨?_, ?_, ?_⟩
  · by_cases h : s.curNode = eTestCase1Stopped <;> simp [FwPrTestCase1Start, setCurNode, h]
  · by_cases h : s.curNode = eTestCase1Stopped <;> simp [FwPrTestCase1Start, setCurNode, h]
  · rw [FwPrTestCase1Start_stopped]
    by_cases h : eTestCase1Init = eTestCase1Stopped <;>
      simp [FwPrTestCase1Start, setCurNode, h]

/-- C9 (P2, Stop is absorbing). For every value of `curNode`, after
`FwPrTestCase1Stop` the current node is `eTestCase1Stopped`,
`FwPrTestCase1IsStarted` gives 0 and `FwPrTestCase1GetCurNode` gives the Stopped
sentinel `eTestCase1Stopped`, which differs from the five declared nodes; Stop
followed by Stop equals Stop, and Stop invokes no callback (the log is
unchanged). -/
theorem stop_absorbing (s : ProcState) :
    (FwPrTestCase1Stop s).curNode = eTestCase1Stopped
    ∧ FwPrTestCase1IsStarted (FwPrTestCase1Stop s) = 0
    ∧ FwPrTestCase1GetCurNode (FwPrTestCase1Stop s) = eTestCase1Stopped
    ∧ FwPrTestCase1Stop (FwPrTestCase1Stop s) = FwPrTestCase1Stop s
    ∧ (FwPrTestCase1Stop s).log = s.log
    ∧ eTestCase1Stopped ∉ [eTestCase1N1, eTestCase1N2, eTestCase1N3, eTestCase1N4,
        eTestCase1N5] := by
  have hc : (FwPrTestCase1Stop s).curNode = eTestCase1Stopped := by
    by_cases h : s.curNode = eTestCase1Stopped <;> simp [FwPrTestCase1Stop, setCurNode, h]
  refine ⟨hc, ?_, hc, ?_, ?_, by decide⟩
  · simp [FwPrTestCase1IsStarted, hc]
  · by_cases h : s.curNode = eTestCase1Stopped <;> simp [FwPrTestCase1Stop, setCurNode, h]
  · by_cases h : s.curNode = eTestCase1Stopped <;> simp [FwPrTestCase1Stop, setCurNode, h]

/-- C10, evaluated on the code. `FwPrTestCase1GetCurNode` gives `curNode` in every
state; when the procedure is stopped this is `eTestCase1Stopped`, that is 0, and
not the -1 announced in the header. -/
theorem getCurNode_when_stopped (s : ProcState) (log : List Event) :
    FwPrTestCase1GetCurNode s = s.curNode
    ∧ FwPrTestCase1IsStarted ⟨eTestCase1Stopped, log⟩ = 0
    ∧ FwPrTestCase1GetCurNode ⟨eTestCase1Stopped, log⟩ = 0
    ∧ FwPrTestCase1GetCurNode ⟨eTestCase1Stopped, log⟩ ≠ -1 := by
  refine ⟨rfl, ?_, rfl, ?_⟩
  · simp [FwPrTestCase1IsStarted]
  · simp [FwPrTestCase1GetCurNode, eTestCase1Stopped]

/-- C11. For every value of `curNode`, `FwPrTestCase1IsStarted` gives 1 when
`curNode` differs from `eTestCase1Stopped` and 0 when it equals it, never another
value; it is a function of the state only and returns no new state. -/
theorem isStarted_contract (s : ProcState) :
    FwPrTestCase1IsStarted s = (if s.curNode = eTestCase1Stopped then 0 else 1)
    ∧ (FwPrTestCase1IsStarted s = 0 ∨ FwPrTestCase1IsStarted s = 1)
    ∧ (FwPrTestCase1IsStarted s = 1 ↔ s.curNode ≠ eTestCase1Stopped)
    ∧ (FwPrTestCase1IsStarted s = 0 ↔ s.curNode = eTestCase1Stopped) := by
  by_cases h : s.curNode = eTestCase1Stopped <;> simp [FwPrTestCase1IsStarted, h]

/-- C12 (P5, decision determinism). A call of `FwPrTestCase1Execute` made at the
initial node with `FwPrTestCase1Decision1N2` giving 1 takes the branch to N2 (N2 is
invoked with `curNode` equal to `eTestCase1N2`), and the resulting state and the
callbacks invoked are the same for every result of `FwPrTestCase1Decision1Final`
(and of the wait guard); `FwPrTestCase1Decision1Final` is not among the callbacks
invoked. The initial node is assumed different from Stopped. -/
theorem decision_determinism (eTestCase1Init : eTestCase1Nodes_t)
    (hInit : eTestCase1Init ≠ eTestCase1Stopped) (dFinal dFinal2 wait wait2 : Int)
    (log : List Event) (fuel : Nat) :
    FwPrTestCase1Execute eTestCase1Init ⟨1, dFinal, wait⟩ (fuel + 1) ⟨eTestCase1Init, log⟩
      = some ⟨eTestCase1Stopped, log ++ [⟨.FwPrTestCase1N1, eTestCase1N1⟩,
          ⟨.FwPrTestCase1Decision1N2, eTestCase1N1⟩, ⟨.FwPrTestCase1N2, eTestCase1N2⟩,
          ⟨.FwPrTestCase1N4, eTestCase1N4⟩]⟩
    ∧ FwPrTestCase1Execute eTestCase1Init ⟨1, dFinal2, wait2⟩ (fuel + 1) ⟨eTestCase1Init, log⟩
      = FwPrTestCase1Execute eTestCase1Init ⟨1, dFinal, wait⟩ (fuel + 1) ⟨eTestCase1Init, log⟩
    ∧ Callback.FwPrTestCase1Decision1Final ∉
        ([⟨.FwPrTestCase1N1, eTestCase1N1⟩,
          ⟨.FwPrTestCase1Decision1N2, eTestCase1N1⟩, ⟨.FwPrTestCase1N2, eTestCase1N2⟩,
          ⟨.FwPrTestCase1N4, eTestCase1N4⟩] : List Event).map Event.callback := by
  refine ⟨?_, ?_, by decide⟩
  · exact Execute_init_branch_N2 eTestCase1Init hInit _ rfl log fuel
  · rw [Execute_init_branch_N2 eTestCase1Init hInit ⟨1, dFinal2, wait2⟩ rfl log fuel,
      Execute_init_branch_N2 eTestCase1Init hInit ⟨1, dFinal, wait⟩ rfl log fuel]

/-- Witness of C12 with `eTestCase1Init = 6`, `FwPrTestCase1Decision1Final` giving
0 in one run and 1 in the other, an empty log and one pass of fuel. -/
theorem decision_determinism_witness :
    (6 : eTestCase1Nodes_t) ≠ eTestCase1Stopped ∧
    (FwPrTestCase1Execute 6 ⟨1, 0, 0⟩ (0 + 1) ⟨6, []⟩
      = some ⟨eTestCase1Stopped, [] ++ [⟨.FwPrTestCase1N1, eTestCase1N1⟩,
          ⟨.FwPrTestCase1Decision1N2, eTestCase1N1⟩, ⟨.FwPrTestCase1N2, eTestCase1N2⟩,
          ⟨.FwPrTestCase1N4, eTestCase1N4⟩]⟩
    ∧ FwPrTestCase1Execute 6 ⟨1, 1, 5⟩ (0 + 1) ⟨6, []⟩
      = FwPrTestCase1Execute 6 ⟨1, 0, 0⟩ (0 + 1) ⟨6, []⟩
    ∧ Callback.FwPrTestCase1Decision1Final ∉
        ([⟨.FwPrTestCase1N1, eTestCase1N1⟩,
          ⟨.FwPrTestCase1Decision1N2, eTestCase1N1⟩, ⟨.FwPrTestCase1N2, eTestCase1N2⟩,
          ⟨.FwPrTestCase1N4, eTestCase1N4⟩] : List Event).map Event.callback) :=
  ⟨by decide, decision_determinism 6 (by decide) 0 1 0 5 [] 0⟩

/-- C13 (action-node ordering), evaluated on the code. When the block of the
initial node is run with both decision guards giving a value other than 1, the
action `FwPrTestCase1N3` is invoked in a state where `curNode`, and so the value
`FwPrTestCase1GetCurNode` gives to the callback, is `eTestCase1N1` and not
`eTestCase1N3`. -/
theorem action_N3_invoked_at_N1 (eTestCase1Init : eTestCase1Nodes_t) (d1 d2 wait : Int)
    (h1 : d1 ≠ 1) (h2 : d2 ≠ 1) (log : List Event) :
    ExecuteBlockInit eTestCase1Init ⟨d1, d2, wait⟩ ⟨eTestCase1Init, log⟩
      = .continued (invoke .FwPrTestCase1N3
          ⟨eTestCase1N1, log ++ [⟨.FwPrTestCase1N1, eTestCase1N1⟩,
            ⟨.FwPrTestCase1Decision1N2, eTestCase1N1⟩,
            ⟨.FwPrTestCase1Decision1Final, eTestCase1N1⟩]⟩)
    ∧ FwPrTestCase1GetCurNode
          ⟨eTestCase1N1, log ++ [⟨.FwPrTestCase1N1, eTestCase1N1⟩,
            ⟨.FwPrTestCase1Decision1N2, eTestCase1N1⟩,
            ⟨.FwPrTestCase1Decision1Final, eTestCase1N1⟩]⟩ = eTestCase1N1
    ∧ eTestCase1N1 ≠ eTestCase1N3 := by
  refine ⟨?_, rfl, by decide⟩
  rw [ExecuteBlockInit_fallthrough eTestCase1Init ⟨d1, d2, wait⟩ h1 h2 ⟨eTestCase1Init, log⟩ rfl]
  simp [invoke]

/-- Witness of C13 with `eTestCase1Init = 6`, all guards giving 0 and an empty
log. -/
theorem action_N3_invoked_at_N1_witness :
    (0 : Int) ≠ 1 ∧ (0 : Int) ≠ 1 ∧
    (ExecuteBlockInit 6 ⟨0, 0, 0⟩ ⟨6, []⟩
      = .continued (invoke .FwPrTestCase1N3
          ⟨eTestCase1N1, [] ++ [⟨.FwPrTestCase1N1, eTestCase1N1⟩,
            ⟨.FwPrTestCase1Decision1N2, eTestCase1N1⟩,
            ⟨.FwPrTestCase1Decision1Final, eTestCase1N1⟩]⟩)
    ∧ FwPrTestCase1GetCurNode
          ⟨eTestCase1N1, [] ++ [⟨.FwPrTestCase1N1, eTestCase1N1⟩,
            ⟨.FwPrTestCase1Decision1N2, eTestCase1N1⟩,
            ⟨.FwPrTestCase1Decision1Final, eTestCase1N1⟩]⟩ = eTestCase1N1
    ∧ eTestCase1N1 ≠ eTestCase1N3) :=
  ⟨by decide, by decide, action_N3_invoked_at_N1 6 0 0 0 (by decide) (by decide) []⟩

/-- C14 (wait-node invariant). In every state reached from Stopped by calls of
Start, Stop and Execute, the action `FwPrTestCase1N5` has not been invoked, and it
is not invoked either during any number of passes of a further call of Execute,
returning or not, whatever the guards give: N5 is never invoked at all, hence
never before the wait guard has reported ready. -/
theorem N5_never_invoked (eTestCase1Init : eTestCase1Nodes_t) (s : ProcState)
    (hs : Reachable eTestCase1Init s) (g : Guards) (n : Nat) :
    Callback.FwPrTestCase1N5 ∉ actionsOf s.log
    ∧ (s.curNode ≠ eTestCase1Stopped →
        Callback.FwPrTestCase1N5 ∉ actionsOf (ExecuteLoopState eTestCase1Init g n s).log) := by
  obtain ⟨hc, hl⟩ := Reachable_invariant eTestCase1Init s hs
  refine ⟨not_mem_actionsOf _ _ hl.1, fun hne => ?_⟩
  exact not_mem_actionsOf _ _
    (ExecuteLoopState_from_init eTestCase1Init g n s (Or.inl (hc.resolve_left hne)) hl).2.1

/-- Witness of C14 at the state reached with `eTestCase1Init = 6` by Start, a call
of Execute taking the branch to N2, and Start again; the further call has all
guards giving 0 and is followed for 3 passes. -/
theorem N5_never_invoked_witness :
    Reachable 6 (FwPrTestCase1Start 6 ⟨eTestCase1Stopped, [⟨.FwPrTestCase1N1, eTestCase1N1⟩,
        ⟨.FwPrTestCase1Decision1N2, eTestCase1N1⟩, ⟨.FwPrTestCase1N2, eTestCase1N2⟩,
        ⟨.FwPrTestCase1N4, eTestCase1N4⟩]⟩) ∧
    (Callback.FwPrTestCase1N5 ∉ actionsOf
        (FwPrTestCase1Start 6 ⟨eTestCase1Stopped, [⟨.FwPrTestCase1N1, eTestCase1N1⟩,
          ⟨.FwPrTestCase1Decision1N2, eTestCase1N1⟩, ⟨.FwPrTestCase1N2, eTestCase1N2⟩,
          ⟨.FwPrTestCase1N4, eTestCase1N4⟩]⟩).log
    ∧ ((FwPrTestCase1Start 6 ⟨eTestCase1Stopped, [⟨.FwPrTestCase1N1, eTestCase1N1⟩,
          ⟨.FwPrTestCase1Decision1N2, eTestCase1N1⟩, ⟨.FwPrTestCase1N2, eTestCase1N2⟩,
          ⟨.FwPrTestCase1N4, eTestCase1N4⟩]⟩).curNode ≠ eTestCase1Stopped →
        Callback.FwPrTestCase1N5 ∉ actionsOf (ExecuteLoopState 6 ⟨0, 0, 0⟩ 3
          (FwPrTestCase1Start 6 ⟨eTestCase1Stopped, [⟨.FwPrTestCase1N1, eTestCase1N1⟩,
            ⟨.FwPrTestCase1Decision1N2, eTestCase1N1⟩, ⟨.FwPrTestCase1N2, eTestCase1N2⟩,
            ⟨.FwPrTestCase1N4, eTestCase1N4⟩]⟩)).log)) :=
  have hr : Reachable 6 (FwPrTestCase1Start 6 ⟨eTestCase1Stopped,
      [⟨.FwPrTestCase1N1, eTestCase1N1⟩, ⟨.FwPrTestCase1Decision1N2, eTestCase1N1⟩,
        ⟨.FwPrTestCase1N2, eTestCase1N2⟩, ⟨.FwPrTestCase1N4, eTestCase1N4⟩]⟩) :=
    Reachable.start (Reachable.execute ⟨1, 0, 0⟩ (Reachable.start Reachable.stopped)
      ⟨1, by decide⟩)
  ⟨hr, N5_never_invoked 6 _ hr ⟨0, 0, 0⟩ 3⟩

/-- C15. In every state reached from Stopped by calls of Start, Stop and Execute,
`curNode` is never `eTestCase1N3`: it is `eTestCase1Stopped` or `eTestCase1Init`;
the wait guard `FwPrTestCase1N3N5` has never been evaluated, and during any number
of passes of a further call of Execute `curNode` is not `eTestCase1N3` and the
wait guard is not evaluated, so the wait-node block is never entered. The initial
node is assumed different from `eTestCase1N3`. -/
theorem reachable_curNode_never_N3 (eTestCase1Init : eTestCase1Nodes_t)
    (hInit : eTestCase1Init ≠ eTestCase1N3) (s : ProcState)
    (hs : Reachable eTestCase1Init s) (g : Guards) (n : Nat) :
    s.curNode ≠ eTestCase1N3
    ∧ (s.curNode = eTestCase1Stopped ∨ s.curNode = eTestCase1Init)
    ∧ Callback.FwPrTestCase1N3N5 ∉ s.log.map Event.callback
    ∧ (s.curNode ≠ eTestCase1Stopped →
        (ExecuteLoopState eTestCase1Init g n s).curNode ≠ eTestCase1N3
        ∧ Callback.FwPrTestCase1N3N5 ∉
            (ExecuteLoopState eTestCase1Init g n s).log.map Event.callback) := by
  have h03 : eTestCase1Stopped ≠ eTestCase1N3 := by decide
  have h13 : eTestCase1N1 ≠ eTestCase1N3 := by decide
  obtain ⟨hc, hl⟩ := Reachable_invariant eTestCase1Init s hs
  refine ⟨?_, hc, hl.2, fun hne => ?_⟩
  · rcases hc with h | h <;> rw [h]
    · exact h03
    · exact hInit
  · obtain ⟨hn, hln⟩ :=
      ExecuteLoopState_from_init eTestCase1Init g n s (Or.inl (hc.resolve_left hne)) hl
    refine ⟨?_, hln.2⟩
    rcases hn with h | h | h <;> rw [h]
    · exact h03
    · exact hInit
    · exact h13

/-- Witness of C15 with `eTestCase1Init = 6`, at the state reached by Start from
Stopped; the further call has all guards giving 0 and is followed for 3 passes. -/
theorem reachable_curNode_never_N3_witness :
    (6 : eTestCase1Nodes_t) ≠ eTestCase1N3 ∧
    Reachable 6 (FwPrTestCase1Start 6 ⟨eTestCase1Stopped, []⟩) ∧
    ((FwPrTestCase1Start 6 ⟨eTestCase1Stopped, []⟩).curNode ≠ eTestCase1N3
    ∧ ((FwPrTestCase1Start 6 ⟨eTestCase1Stopped, []⟩).curNode = eTestCase1Stopped
        ∨ (FwPrTestCase1Start 6 ⟨eTestCase1Stopped, []⟩).curNode = 6)
    ∧ Callback.FwPrTestCase1N3N5 ∉
        (FwPrTestCase1Start 6 ⟨eTestCase1Stopped, []⟩).log.map Event.callback
    ∧ ((FwPrTestCase1Start 6 ⟨eTestCase1Stopped, []⟩).curNode ≠ eTestCase1Stopped →
        (ExecuteLoopState 6 ⟨0, 0, 0⟩ 3
            (FwPrTestCase1Start 6 ⟨eTestCase1Stopped, []⟩)).curNode ≠ eTestCase1N3
        ∧ Callback.FwPrTestCase1N3N5 ∉
            (ExecuteLoopState 6 ⟨0, 0, 0⟩ 3
              (FwPrTestCase1Start 6 ⟨eTestCase1Stopped, []⟩)).log.map Event.callback)) :=
  ⟨by decide, Reachable.start Reachable.stopped,
    reachable_curNode_never_N3 6 (by decide) _ (Reachable.start Reachable.stopped)
      ⟨0, 0, 0⟩ 3⟩

/-- C16. A call of `FwPrTestCase1Execute` made with `curNode` equal to
`eTestCase1Init` returns (for some fuel) if and only if
`FwPrTestCase1Decision1N2` or `FwPrTestCase1Decision1Final` gives 1; whenever it
returns, `curNode` is `eTestCase1Stopped`; when both give a value other than 1,
the first pass invokes N1 and N3 once each (with the two guards) and leaves
`curNode` at `eTestCase1N1`, every later pass changes nothing and invokes nothing,
and the call does not return whatever the fuel. The initial node is assumed
different from `eTestCase1Stopped` and `eTestCase1N1`. -/
theorem execute_from_init_returns_iff (eTestCase1Init : eTestCase1Nodes_t)
    (hInit0 : eTestCase1Init ≠ eTestCase1Stopped) (hInit1 : eTestCase1Init ≠ eTestCase1N1)
    (d1 d2 wait : Int) (log : List Event) :
    ((∃ fuel t, FwPrTestCase1Execute eTestCase1Init ⟨d1, d2, wait⟩ fuel ⟨eTestCase1Init, log⟩
        = some t) ↔ (d1 = 1 ∨ d2 = 1))
    ∧ (∀ fuel t, FwPrTestCase1Execute eTestCase1Init ⟨d1, d2, wait⟩ fuel ⟨eTestCase1Init, log⟩
        = some t → t.curNode = eTestCase1Stopped)
    ∧ (d1 ≠ 1 ∧ d2 ≠ 1 →
        ExecuteLoopBody eTestCase1Init ⟨d1, d2, wait⟩ ⟨eTestCase1Init, log⟩
          = .continued ⟨eTestCase1N1, log ++ [⟨.FwPrTestCase1N1, eTestCase1N1⟩,
              ⟨.FwPrTestCase1Decision1N2, eTestCase1N1⟩,
              ⟨.FwPrTestCase1Decision1Final, eTestCase1N1⟩,
              ⟨.FwPrTestCase1N3, eTestCase1N1⟩]⟩
        ∧ ExecuteLoopBody eTestCase1Init ⟨d1, d2, wait⟩
            ⟨eTestCase1N1, log ++ [⟨.FwPrTestCase1N1, eTestCase1N1⟩,
              ⟨.FwPrTestCase1Decision1N2, eTestCase1N1⟩,
              ⟨.FwPrTestCase1Decision1Final, eTestCase1N1⟩,
              ⟨.FwPrTestCase1N3, eTestCase1N1⟩]⟩
          = .continued ⟨eTestCase1N1, log ++ [⟨.FwPrTestCase1N1, eTestCase1N1⟩,
              ⟨.FwPrTestCase1Decision1N2, eTestCase1N1⟩,
              ⟨.FwPrTestCase1Decision1Final, eTestCase1N1⟩,
              ⟨.FwPrTestCase1N3, eTestCase1N1⟩]⟩
        ∧ actionsOf [⟨.FwPrTestCase1N1, eTestCase1N1⟩,
              ⟨.FwPrTestCase1Decision1N2, eTestCase1N1⟩,
              ⟨.FwPrTestCase1Decision1Final, eTestCase1N1⟩,
              ⟨.FwPrTestCase1N3, eTestCase1N1⟩]
            = [.FwPrTestCase1N1, .FwPrTestCase1N3]
        ∧ ∀ fuel, FwPrTestCase1Execute eTestCase1Init ⟨d1, d2, wait⟩ fuel
            ⟨eTestCase1Init, log⟩ = none) := by
  have h13 : eTestCase1N1 ≠ eTestCase1N3 := by decide
  have hzero : FwPrTestCase1Execute eTestCase1Init ⟨d1, d2, wait⟩ 0 ⟨eTestCase1Init, log⟩
      = none := by
    unfold FwPrTestCase1Execute
    rw [if_neg hInit0]
    rfl
  refine ⟨⟨?_, ?_⟩, ?_, ?_⟩
  · rintro ⟨fuel, t, ht⟩
    by_contra hcon
    push_neg at hcon
    rw [Execute_init_fallthrough eTestCase1Init hInit0 ⟨d1, d2, wait⟩ hcon.1 hcon.2 log fuel]
      at ht
    exact Option.noConfusion ht
  · intro h
    by_cases h1 : d1 = 1
    · exact ⟨1, _, Execute_init_branch_N2 eTestCase1Init hInit0 ⟨d1, d2, wait⟩ h1 log 0⟩
    · have h2 : d2 = 1 := h.resolve_left h1
      exact ⟨1, _, Execute_init_final eTestCase1Init hInit0 ⟨d1, d2, wait⟩ h1 h2 log 0⟩
  · intro fuel t ht
    cases fuel with
    | zero => rw [hzero] at ht; exact Option.noConfusion ht
    | succ k =>
      by_cases h1 : d1 = 1
      · rw [Execute_init_branch_N2 eTestCase1Init hInit0 ⟨d1, d2, wait⟩ h1 log k] at ht
        rw [← Option.some.inj ht]
      · by_cases h2 : d2 = 1
        · rw [Execute_init_final eTestCase1Init hInit0 ⟨d1, d2, wait⟩ h1 h2 log k] at ht
          rw [← Option.some.inj ht]
        · rw [Execute_init_fallthrough eTestCase1Init hInit0 ⟨d1, d2, wait⟩ h1 h2 log (k + 1)]
            at ht
          exact Option.noConfusion ht
  · rintro ⟨h1, h2⟩
    refine ⟨?_, ?_, by decide, ?_⟩
    · unfold ExecuteLoopBody
      rw [ExecuteBlockInit_fallthrough eTestCase1Init ⟨d1, d2, wait⟩ h1 h2
        ⟨eTestCase1Init, log⟩ rfl]
      exact ExecuteBlockN3_of_ne _ _ h13
    · exact ExecuteLoopBody_no_block eTestCase1Init _ _ (fun h => hInit1 h.symm) h13
    · exact Execute_init_fallthrough eTestCase1Init hInit0 ⟨d1, d2, wait⟩ h1 h2 log

/-- Witness of C16 with `eTestCase1Init = 6`, all guards giving 0 and an empty
log. -/
theorem execute_from_init_returns_iff_witness :
    (6 : eTestCase1Nodes_t) ≠ eTestCase1Stopped ∧ (6 : eTestCase1Nodes_t) ≠ eTestCase1N1 ∧
    (((∃ fuel t, FwPrTestCase1Execute 6 ⟨0, 0, 0⟩ fuel ⟨6, []⟩ = some t)
        ↔ ((0 : Int) = 1 ∨ (0 : Int) = 1))
    ∧ (∀ fuel t, FwPrTestCase1Execute 6 ⟨0, 0, 0⟩ fuel ⟨6, []⟩ = some t →
        t.curNode = eTestCase1Stopped)
    ∧ ((0 : Int) ≠ 1 ∧ (0 : Int) ≠ 1 →
        ExecuteLoopBody 6 ⟨0, 0, 0⟩ ⟨6, []⟩
          = .continued ⟨eTestCase1N1, [] ++ [⟨.FwPrTestCase1N1, eTestCase1N1⟩,
              ⟨.FwPrTestCase1Decision1N2, eTestCase1N1⟩,
              ⟨.FwPrTestCase1Decision1Final, eTestCase1N1⟩,
              ⟨.FwPrTestCase1N3, eTestCase1N1⟩]⟩
        ∧ ExecuteLoopBody 6 ⟨0, 0, 0⟩
            ⟨eTestCase1N1, [] ++ [⟨.FwPrTestCase1N1, eTestCase1N1⟩,
              ⟨.FwPrTestCase1Decision1N2, eTestCase1N1⟩,
              ⟨.FwPrTestCase1Decision1Final, eTestCase1N1⟩,
              ⟨.FwPrTestCase1N3, eTestCase1N1⟩]⟩
          = .continued ⟨eTestCase1N1, [] ++ [⟨.FwPrTestCase1N1, eTestCase1N1⟩,
              ⟨.FwPrTestCase1Decision1N2, eTestCase1N1⟩,
              ⟨.FwPrTestCase1Decision1Final, eTestCase1N1⟩,
              ⟨.FwPrTestCase1N3, eTestCase1N1⟩]⟩
        ∧ actionsOf [⟨.FwPrTestCase1N1, eTestCase1N1⟩,
              ⟨.FwPrTestCase1Decision1N2, eTestCase1N1⟩,
              ⟨.FwPrTestCase1Decision1Final, eTestCase1N1⟩,
              ⟨.FwPrTestCase1N3, eTestCase1N1⟩]
            = [.FwPrTestCase1N1, .FwPrTestCase1N3]
        ∧ ∀ fuel, FwPrTestCase1Execute 6 ⟨0, 0, 0⟩ fuel ⟨6, []⟩ = none)) :=
  ⟨by decide, by decide, execute_from_init_returns_iff 6 (by decide) (by decide) 0 0 0 []⟩

/-- C17. The decision guards count as true only when they give exactly 1: a call
of `FwPrTestCase1Execute` made at the initial node with
`FwPrTestCase1Decision1N2` giving any value other than 1 (2, for example) and
`FwPrTestCase1Decision1Final` giving 1 does not take the branch to N2: the
callbacks invoked are N1 and the two decision guards, so N1 is the only action
invoked (N2 and N4 are not), and the call returns with `curNode` equal to
`eTestCase1Stopped`. The initial node is assumed different from Stopped. -/
theorem guard_true_only_when_one (eTestCase1Init : eTestCase1Nodes_t)
    (hInit : eTestCase1Init ≠ eTestCase1Stopped) (d1 wait : Int) (hd : d1 ≠ 1)
    (log : List Event) (fuel : Nat) :
    FwPrTestCase1Execute eTestCase1Init ⟨d1, 1, wait⟩ (fuel + 1) ⟨eTestCase1Init, log⟩
      = some ⟨eTestCase1Stopped, log ++ [⟨.FwPrTestCase1N1, eTestCase1N1⟩,
          ⟨.FwPrTestCase1Decision1N2, eTestCase1N1⟩,
          ⟨.FwPrTestCase1Decision1Final, eTestCase1N1⟩]⟩
    ∧ actionsOf [⟨.FwPrTestCase1N1, eTestCase1N1⟩,
          ⟨.FwPrTestCase1Decision1N2, eTestCase1N1⟩,
          ⟨.FwPrTestCase1Decision1Final, eTestCase1N1⟩]
        = [.FwPrTestCase1N1] :=
  ⟨Execute_init_final eTestCase1Init hInit ⟨d1, 1, wait⟩ hd rfl log fuel, by decide⟩

/-- Witness of C17 with `eTestCase1Init = 6`, `FwPrTestCase1Decision1N2` giving 2,
the wait guard giving 0, an empty log and one pass of fuel. -/
theorem guard_true_only_when_one_witness :
    (6 : eTestCase1Nodes_t) ≠ eTestCase1Stopped ∧ (2 : Int) ≠ 1 ∧
    (FwPrTestCase1Execute 6 ⟨2, 1, 0⟩ (0 + 1) ⟨6, []⟩
      = some ⟨eTestCase1Stopped, [] ++ [⟨.FwPrTestCase1N1, eTestCase1N1⟩,
          ⟨.FwPrTestCase1Decision1N2, eTestCase1N1⟩,
          ⟨.FwPrTestCase1Decision1Final, eTestCase1N1⟩]⟩
    ∧ actionsOf [⟨.FwPrTestCase1N1, eTestCase1N1⟩,
          ⟨.FwPrTestCase1Decision1N2, eTestCase1N1⟩,
          ⟨.FwPrTestCase1Decision1Final, eTestCase1N1⟩]
        = [.FwPrTestCase1N1]) :=
  ⟨by decide, by decide, guard_true_only_when_one 6 (by decide) 2 0 (by decide) [] 0⟩

end TestCase1
